import Mathlib

/-!
# Drawpile synchronization core: a shallow embedding

This file embeds the client-side session state machine
(`src/client/sessionstate.cpp`) and the server shell
(`src/server/multiserver.cpp`) of the Drawpile collaborative drawing
program as executable Lean definitions, and proves the specification
claims about join synchronization, draw-operation buffering, raster
snapshot transfer, admission banning, auto-stop, and the administrative
JSON API.

Bytes are modelled as `Nat`, byte buffers as `List Nat`, Qt signals as
explicit event lists returned by the handlers.
-/

namespace Drawpile

/-! ## Protocol messages (client side)

The draw messages buffered by `SessionState` carry the fields the
handlers read.  `ToolInfo` colour channels, sizes and hardness values
are 8-bit words on the wire; we carry them as raw `Nat`s since the
handlers forward them unchanged (up to a fixed rescaling) to signals. -/

structure ToolInfoMsg where
  session_id : Nat
  user_id : Nat
  tool_id : Nat
  mode : Nat
  lo_color : Nat × Nat × Nat × Nat
  hi_color : Nat × Nat × Nat × Nat
  lo_size : Nat
  hi_size : Nat
  lo_hardness : Nat
  hi_hardness : Nat
  deriving Repr, DecidableEq

structure StrokeInfoMsg where
  session_id : Nat
  user_id : Nat
  x : Nat
  y : Nat
  pressure : Nat
  deriving Repr, DecidableEq

structure StrokeEndMsg where
  session_id : Nat
  user_id : Nat
  deriving Repr, DecidableEq

/-- Embeds `protocol::Raster`: one chunk of the snapshot transfer. -/
structure RasterMsg where
  session_id : Nat
  offset : Nat
  length : Nat
  size : Nat
  data : List Nat
  deriving Repr, DecidableEq

/-- The three drawing-command message kinds that `SessionState` buffers
while a snapshot transfer is in progress (`protocol::type::ToolInfo`,
`StrokeInfo`, `StrokeEnd`). -/
inductive DrawMsg where
  | tool (m : ToolInfoMsg)
  | stroke (m : StrokeInfoMsg)
  | strokeEnd (m : StrokeEndMsg)
  deriving Repr, DecidableEq

/-- Reinterpret a 16-bit unsigned wire value as a signed short, as the
`(signed short)(msg->x)` cast in `handleStrokeInfo` does. -/
def toSigned16 (n : Nat) : Int :=
  if n % 65536 < 32768 then (n % 65536 : Int) else (n % 65536 : Int) - 65536

/-! ## Events

Qt signal emissions, in emission order.  A signal's float arguments
(brush opacity, pressure) are carried as the raw wire words they are
computed from. -/

inductive Event where
  | toolReceived (user_id : Nat) (m : ToolInfoMsg)
  | strokeReceived (user_id : Nat) (x y : Int) (pressure : Nat)
  | strokeEndReceived (user_id : Nat)
  | rasterReceived (percent : Nat)
  deriving Repr, DecidableEq

/-! ## SessionState

The fields of `network::SessionState` that the raster transfer and the
draw buffer read and write: `raster_`, `rasteroffset_`, `bufferdrawing_`
and `drawbuffer_`.  The constructor initializes `rasteroffset_ = 0` and
`bufferdrawing_ = true`. -/

structure SessionState where
  raster : List Nat
  rasteroffset : Nat
  bufferdrawing : Bool
  drawbuffer : List DrawMsg
  deriving Repr, DecidableEq

/-- The freshly constructed session state. -/
def initSession : SessionState :=
  { raster := [], rasteroffset := 0, bufferdrawing := true, drawbuffer := [] }

/-- Embeds `SessionState::handleToolInfo`: while `bufferdrawing_` is set the
message is enqueued and nothing is emitted; otherwise the brush signal
is emitted at once. -/
def handleToolInfo (s : SessionState) (m : ToolInfoMsg) :
    SessionState × List Event :=
  if s.bufferdrawing then
    ({ s with drawbuffer := s.drawbuffer ++ [DrawMsg.tool m] }, [])
  else
    (s, [Event.toolReceived m.user_id m])

/-- Embeds `SessionState::handleStrokeInfo`. -/
def handleStrokeInfo (s : SessionState) (m : StrokeInfoMsg) :
    SessionState × List Event :=
  if s.bufferdrawing then
    ({ s with drawbuffer := s.drawbuffer ++ [DrawMsg.stroke m] }, [])
  else
    (s, [Event.strokeReceived m.user_id (toSigned16 m.x) (toSigned16 m.y) m.pressure])

/-- Embeds `SessionState::handleStrokeEnd`. -/
def handleStrokeEnd (s : SessionState) (m : StrokeEndMsg) :
    SessionState × List Event :=
  if s.bufferdrawing then
    ({ s with drawbuffer := s.drawbuffer ++ [DrawMsg.strokeEnd m] }, [])
  else
    (s, [Event.strokeEndReceived m.user_id])

/-- Dispatch a dequeued draw message by its `type` tag, as the body of
the `flushDrawBuffer` loop does. -/
def handleDrawMsg (s : SessionState) (m : DrawMsg) : SessionState × List Event :=
  match m with
  | DrawMsg.tool t => handleToolInfo s t
  | DrawMsg.stroke t => handleStrokeInfo s t
  | DrawMsg.strokeEnd t => handleStrokeEnd s t

/-- The `while(drawbuffer_.isEmpty() == false)` loop of
`SessionState::flushDrawBuffer`, with explicit fuel.  The C++ loop is
unbounded; `none` marks fuel running out with the buffer still
non-empty. -/
def flushLoop : Nat → SessionState → Option (SessionState × List Event)
  | 0, s => if s.drawbuffer.isEmpty then some (s, []) else none
  | fuel + 1, s =>
    match s.drawbuffer with
    | [] => some (s, [])
    | m :: rest =>
      let step := handleDrawMsg { s with drawbuffer := rest } m
      match flushLoop fuel step.1 with
      | some (s2, evs2) => some (s2, step.2 ++ evs2)
      | none => none

/-- Embeds `SessionState::flushDrawBuffer`: clear `bufferdrawing_`, then drain
the queue.  Fuel equal to the queue length suffices exactly because the
handlers cannot re-enqueue once the flag is down (proved below). -/
def flushDrawBuffer (s : SessionState) : Option (SessionState × List Event) :=
  flushLoop s.drawbuffer.length { s with bufferdrawing := false }

/-- Embeds `SessionState::handleRaster`: zero total size completes at once;
offset zero truncates any previously accumulated data; the chunk's
`length` bytes are appended; the transfer completes when
`offset + length ≥ size`. -/
def handleRaster (s : SessionState) (m : RasterMsg) :
    Option (SessionState × List Event) :=
  if m.size = 0 then
    match flushDrawBuffer s with
    | some (s2, evs) => some (s2, Event.rasterReceived 100 :: evs)
    | none => none
  else
    let base := if m.offset = 0 then { s with raster := [] } else s
    let s1 := { base with raster := base.raster ++ m.data.take m.length }
    if m.offset + m.length < m.size then
      some (s1, [Event.rasterReceived (99 * (m.offset + m.length) / m.size)])
    else
      match flushDrawBuffer s1 with
      | some (s2, evs) => some (s2, Event.rasterReceived 100 :: evs)
      | none => none

/-- The local picture decoded from the received raster buffer
(`SessionState::sessionImage`): an empty buffer yields the null image,
otherwise the buffer is decoded (`QImage::loadFromData`, modelled by the
`decodeOk` oracle), failure reported as `none`. -/
inductive SessionImage where
  | nullImage
  | picture (data : List Nat)
  deriving Repr, DecidableEq

def sessionImage (decodeOk : List Nat → Bool) (s : SessionState) :
    Option SessionImage :=
  if s.raster.isEmpty then some SessionImage.nullImage
  else if decodeOk s.raster then some (SessionImage.picture s.raster)
  else none

/-! ## Network message stream

The dispatcher feeding `SessionState` hands each incoming message to the
matching handler; we model the stream of messages a member receives
after joining. -/

inductive NetMsg where
  | tool (m : ToolInfoMsg)
  | stroke (m : StrokeInfoMsg)
  | strokeEnd (m : StrokeEndMsg)
  | raster (m : RasterMsg)
  deriving Repr, DecidableEq

def handleNetMsg (s : SessionState) (m : NetMsg) :
    Option (SessionState × List Event) :=
  match m with
  | NetMsg.tool t => some (handleToolInfo s t)
  | NetMsg.stroke t => some (handleStrokeInfo s t)
  | NetMsg.strokeEnd t => some (handleStrokeEnd s t)
  | NetMsg.raster t => handleRaster s t

def processMsgs (s : SessionState) : List NetMsg → Option (SessionState × List Event)
  | [] => some (s, [])
  | m :: rest =>
    match handleNetMsg s m with
    | some (s1, evs1) =>
      match processMsgs s1 rest with
      | some (s2, evs2) => some (s2, evs1 ++ evs2)
      | none => none
    | none => none

/-- The signal a draw message produces when applied (not buffered). -/
def appliedEvent : DrawMsg → Event
  | DrawMsg.tool m => Event.toolReceived m.user_id m
  | DrawMsg.stroke m =>
    Event.strokeReceived m.user_id (toSigned16 m.x) (toSigned16 m.y) m.pressure
  | DrawMsg.strokeEnd m => Event.strokeEndReceived m.user_id

/-! ## Draining lemmas -/

/-- Once `bufferdrawing_` is down, a draw handler applies the message at
once: the state is untouched and exactly one signal is emitted. -/
theorem handleDrawMsg_live (s : SessionState) (m : DrawMsg)
    (h : s.bufferdrawing = false) :
    handleDrawMsg s m = (s, [appliedEvent m]) := by
  cases m <;>
    simp [handleDrawMsg, handleToolInfo, handleStrokeInfo, handleStrokeEnd, h,
      appliedEvent]

/-- While `bufferdrawing_` is up, a draw handler enqueues the message at
the back of the FIFO and emits nothing. -/
theorem handleDrawMsg_buffering (s : SessionState) (m : DrawMsg)
    (h : s.bufferdrawing = true) :
    handleDrawMsg s m =
      ({ s with drawbuffer := s.drawbuffer ++ [m] }, []) := by
  cases m <;>
    simp [handleDrawMsg, handleToolInfo, handleStrokeInfo, handleStrokeEnd, h]

/-- With the buffering flag down and enough fuel, the flush loop drains
the whole queue in FIFO order, applying each message exactly once. -/
theorem flushLoop_drains (n : Nat) :
    ∀ s : SessionState, s.bufferdrawing = false → s.drawbuffer.length ≤ n →
      flushLoop n s =
        some ({ s with drawbuffer := [] }, s.drawbuffer.map appliedEvent) := by
  induction n with
  | zero =>
    intro s hb hlen
    obtain ⟨r, o, b, d⟩ := s
    have hnil : d = [] := List.eq_nil_of_length_eq_zero (Nat.le_zero.mp hlen)
    simp [flushLoop, hnil]
  | succ n ih =>
    intro s hb hlen
    obtain ⟨r, o, b, d⟩ := s
    cases d with
    | nil => simp [flushLoop]
    | cons m rest =>
      have hb' : (⟨r, o, b, rest⟩ : SessionState).bufferdrawing = false := hb
      have hstep : handleDrawMsg ⟨r, o, b, rest⟩ m =
          (⟨r, o, b, rest⟩, [appliedEvent m]) :=
        handleDrawMsg_live _ m hb'
      have hrest : (⟨r, o, b, rest⟩ : SessionState).drawbuffer.length ≤ n := by
        simpa using Nat.le_of_succ_le_succ hlen
      have hih := ih ⟨r, o, b, rest⟩ hb' hrest
      simp only [flushLoop, hstep, hih]
      simp

/-- Running `flushDrawBuffer` on any state: the loop terminates within
`drawbuffer.length` iterations, clears the flag and the queue, and
applies every buffered message exactly once, in enqueue order. -/
theorem flushDrawBuffer_spec (s : SessionState) :
    flushDrawBuffer s =
      some ({ s with bufferdrawing := false, drawbuffer := [] },
        s.drawbuffer.map appliedEvent) := by
  unfold flushDrawBuffer
  exact flushLoop_drains s.drawbuffer.length { s with bufferdrawing := false }
    rfl (by simp)

/-- Receiving a whole sequence of draw messages in a row. -/
def processDraws (s : SessionState) : List DrawMsg → SessionState × List Event
  | [] => (s, [])
  | m :: rest =>
    let step := handleDrawMsg s m
    let next := processDraws step.1 rest
    (next.1, step.2 ++ next.2)

/-- While buffering, a run of draw messages is appended to the FIFO in
arrival order and nothing is emitted. -/
theorem processDraws_buffering :
    ∀ (ops : List DrawMsg) (s : SessionState), s.bufferdrawing = true →
      processDraws s ops = ({ s with drawbuffer := s.drawbuffer ++ ops }, []) := by
  intro ops
  induction ops with
  | nil =>
    intro s hb
    obtain ⟨r, o, b, d⟩ := s
    simp [processDraws]
  | cons m rest ih =>
    intro s hb
    have hstep := handleDrawMsg_buffering s m hb
    have hnext := ih { s with drawbuffer := s.drawbuffer ++ [m] } hb
    simp only [processDraws, hstep, hnext]
    simp

/-- The signals a single network message produces when the member is
Live (buffering over, empty buffer); independent of the session state. -/
def immediateEvents : NetMsg → List Event
  | NetMsg.tool m => [Event.toolReceived m.user_id m]
  | NetMsg.stroke m =>
    [Event.strokeReceived m.user_id (toSigned16 m.x) (toSigned16 m.y) m.pressure]
  | NetMsg.strokeEnd m => [Event.strokeEndReceived m.user_id]
  | NetMsg.raster m =>
    if m.size = 0 then [Event.rasterReceived 100]
    else if m.offset + m.length < m.size then
      [Event.rasterReceived (99 * (m.offset + m.length) / m.size)]
    else [Event.rasterReceived 100]

/-- One Live step: the handler emits the message's immediate signals,
leaves the buffering flag down and the draw buffer empty. -/
theorem handleNetMsg_live (s : SessionState) (m : NetMsg)
    (hb : s.bufferdrawing = false) (hq : s.drawbuffer = []) :
    ∃ s', handleNetMsg s m = some (s', immediateEvents m) ∧
      s'.bufferdrawing = false ∧ s'.drawbuffer = [] := by
  match m with
  | NetMsg.tool t =>
    refine ⟨s, ?_, hb, hq⟩
    simp [handleNetMsg, handleToolInfo, hb, immediateEvents]
  | NetMsg.stroke t =>
    refine ⟨s, ?_, hb, hq⟩
    simp [handleNetMsg, handleStrokeInfo, hb, immediateEvents]
  | NetMsg.strokeEnd t =>
    refine ⟨s, ?_, hb, hq⟩
    simp [handleNetMsg, handleStrokeEnd, hb, immediateEvents]
  | NetMsg.raster t =>
    by_cases hsz : t.size = 0
    · refine ⟨{ s with bufferdrawing := false, drawbuffer := [] }, ?_, rfl, rfl⟩
      simp [handleNetMsg, handleRaster, hsz, flushDrawBuffer_spec, hq, immediateEvents]
    · by_cases hoff : t.offset = 0
      · by_cases hmid : t.offset + t.length < t.size
        · have hmid' : t.length < t.size := by simpa [hoff] using hmid
          refine ⟨{ s with raster := t.data.take t.length }, ?_, hb, hq⟩
          simp [handleNetMsg, handleRaster, hsz, hoff, hmid', immediateEvents]
        · have hmid' : ¬ t.length < t.size := by simpa [hoff] using hmid
          refine ⟨{ s with raster := t.data.take t.length, bufferdrawing := false, drawbuffer := [] }, ?_, rfl, rfl⟩
          simp [handleNetMsg, handleRaster, hsz, hoff, hmid', immediateEvents, flushDrawBuffer_spec, hq]
      · by_cases hmid : t.offset + t.length < t.size
        · refine ⟨{ s with raster := s.raster ++ t.data.take t.length }, ?_, hb, hq⟩
          simp [handleNetMsg, handleRaster, hsz, hoff, hmid, immediateEvents]
        · refine ⟨{ s with raster := s.raster ++ t.data.take t.length, bufferdrawing := false, drawbuffer := [] }, ?_, rfl, rfl⟩
          simp [handleNetMsg, handleRaster, hsz, hoff, hmid, immediateEvents, flushDrawBuffer_spec, hq]

/-- A Live member stays Live over any received message sequence, each
message's signals emitted in arrival order. -/
theorem processMsgs_live :
    ∀ (msgs : List NetMsg) (s : SessionState), s.bufferdrawing = false →
      s.drawbuffer = [] →
      ∃ s', processMsgs s msgs = some (s', msgs.flatMap immediateEvents) ∧
        s'.bufferdrawing = false ∧ s'.drawbuffer = [] := by
  intro msgs
  induction msgs with
  | nil =>
    intro s hb hq
    exact ⟨s, by simp [processMsgs], hb, hq⟩
  | cons m rest ih =>
    intro s hb hq
    obtain ⟨s1, hm, hb1, hq1⟩ := handleNetMsg_live s m hb hq
    obtain ⟨s2, hrest, hb2, hq2⟩ := ih s1 hb1 hq1
    refine ⟨s2, ?_, hb2, hq2⟩
    simp [processMsgs, hm, hrest]

/-! ## Concrete sample inputs for witnesses -/

def sampleTool : ToolInfoMsg :=
  { session_id := 1, user_id := 2, tool_id := 0, mode := 0,
    lo_color := (0, 0, 0, 255), hi_color := (255, 255, 255, 255),
    lo_size := 4, hi_size := 8, lo_hardness := 100, hi_hardness := 200 }

def sampleStroke : StrokeInfoMsg :=
  { session_id := 1, user_id := 2, x := 10, y := 20, pressure := 128 }

def sampleStrokeDone : StrokeEndMsg := { session_id := 1, user_id := 2 }

def sampleOps : List DrawMsg :=
  [DrawMsg.tool sampleTool, DrawMsg.stroke sampleStroke,
    DrawMsg.strokeEnd sampleStrokeDone]

/-- A Live session state, as left behind by a completed snapshot. -/
def liveSession : SessionState :=
  { raster := [], rasteroffset := 0, bufferdrawing := false, drawbuffer := [] }

def sampleRasterStart : RasterMsg :=
  { session_id := 1, offset := 0, length := 2, size := 4, data := [7, 8] }

def sampleRasterRest : RasterMsg :=
  { session_id := 1, offset := 2, length := 2, size := 4, data := [9, 10] }

def sampleNetMsgs : List NetMsg :=
  [NetMsg.raster sampleRasterStart, NetMsg.stroke sampleStroke,
    NetMsg.raster sampleRasterRest]

/-! ## Claim theorems: client session state -/

/-- C1: every drawing operation received while the member is still
buffering is neither applied (no signal) nor dropped but appended to the
member's private FIFO draw buffer, in arrival order; when the snapshot
transfer completes, `flushDrawBuffer` drains that FIFO, applying every
buffered operation in exactly the order received. -/
theorem drawops_buffered_then_drained_in_order (s : SessionState)
    (ops : List DrawMsg) (h : s.bufferdrawing = true) :
    processDraws s ops = ({ s with drawbuffer := s.drawbuffer ++ ops }, []) ∧
    flushDrawBuffer { s with drawbuffer := s.drawbuffer ++ ops } =
      some ({ s with bufferdrawing := false, drawbuffer := [] },
        (s.drawbuffer ++ ops).map appliedEvent) := by
  refine ⟨processDraws_buffering ops s h, ?_⟩
  simpa using flushDrawBuffer_spec { s with drawbuffer := s.drawbuffer ++ ops }

/-- Witness for C1 on a fresh session receiving three operations. -/
theorem drawops_buffered_then_drained_in_order_witness :
    processDraws initSession sampleOps =
      ({ initSession with drawbuffer := initSession.drawbuffer ++ sampleOps }, []) ∧
    flushDrawBuffer { initSession with drawbuffer := initSession.drawbuffer ++ sampleOps } =
      some ({ initSession with bufferdrawing := false, drawbuffer := [] },
        (initSession.drawbuffer ++ sampleOps).map appliedEvent) :=
  drawops_buffered_then_drained_in_order initSession sampleOps rfl

/-- C2: the Buffering-to-Live transition is one-way.  After the draw
buffer has been drained once by `flushDrawBuffer`, processing any
subsequent message sequence (raster restarts included) applies every
drawing operation immediately on receipt — each message's signals are
emitted at its position in the stream — and the draw buffer stays empty
with the buffering flag never re-enabled. -/
theorem live_transition_one_way (s0 s1 : SessionState) (evs : List Event)
    (msgs : List NetMsg) (h : flushDrawBuffer s0 = some (s1, evs)) :
    ∃ s', processMsgs s1 msgs = some (s', msgs.flatMap immediateEvents) ∧
      s'.bufferdrawing = false ∧ s'.drawbuffer = [] := by
  have hspec := flushDrawBuffer_spec s0
  rw [h] at hspec
  have hs1 : s1 = { s0 with bufferdrawing := false, drawbuffer := [] } := by
    have := hspec
    simp only [Option.some.injEq, Prod.mk.injEq] at this
    exact this.1
  exact processMsgs_live msgs s1 (by rw [hs1]) (by rw [hs1])

/-- Witness for C2: a freshly flushed session processing a stream that
contains a stroke and a raster restart. -/
theorem live_transition_one_way_witness :
    ∃ s', processMsgs liveSession sampleNetMsgs =
        some (s', sampleNetMsgs.flatMap immediateEvents) ∧
      s'.bufferdrawing = false ∧ s'.drawbuffer = [] :=
  live_transition_one_way initSession liveSession [] sampleNetMsgs (by decide)

/-- C3: a raster chunk with offset 0 and nonzero size discards any
previously accumulated raster buffer, so the stored raster afterwards is
exactly that chunk's data; a chunk with nonzero offset is appended after
the existing buffer. -/
theorem raster_chunk_restart_or_append (s : SessionState) (m : RasterMsg)
    (hsz : m.size ≠ 0) (hlen : m.data.length = m.length) :
    ∃ s' evs, handleRaster s m = some (s', evs) ∧
      s'.raster = if m.offset = 0 then m.data else s.raster ++ m.data := by
  have hdata : m.data.take m.length = m.data := by
    rw [← hlen]
    exact List.take_length m.data
  by_cases hoff : m.offset = 0
  · by_cases hmid : m.offset + m.length < m.size
    · have hmid' : m.length < m.size := by simpa [hoff] using hmid
      refine ⟨{ s with raster := m.data.take m.length },
        [Event.rasterReceived (99 * (m.offset + m.length) / m.size)],
        ?_, by simp [hdata, hoff]⟩
      simp [handleRaster, hsz, hoff, hmid']
    · have hmid' : ¬ m.length < m.size := by simpa [hoff] using hmid
      refine ⟨{ s with raster := m.data.take m.length, bufferdrawing := false, drawbuffer := [] },
        Event.rasterReceived 100 :: s.drawbuffer.map appliedEvent,
        ?_, by simp [hdata, hoff]⟩
      simp [handleRaster, hsz, hoff, hmid', flushDrawBuffer_spec]
  · by_cases hmid : m.offset + m.length < m.size
    · refine ⟨{ s with raster := s.raster ++ m.data.take m.length },
        [Event.rasterReceived (99 * (m.offset + m.length) / m.size)],
        ?_, by simp [hdata, hoff]⟩
      simp [handleRaster, hsz, hoff, hmid]
    · refine ⟨{ s with raster := s.raster ++ m.data.take m.length, bufferdrawing := false, drawbuffer := [] },
        Event.rasterReceived 100 :: s.drawbuffer.map appliedEvent,
        ?_, by simp [hdata, hoff]⟩
      simp [handleRaster, hsz, hoff, hmid, flushDrawBuffer_spec]

/-- Witness for C3: a restart chunk received over a partial buffer, and
a continuation chunk appended after it. -/
theorem raster_chunk_restart_or_append_witness :
    (∃ s' evs, handleRaster { liveSession with raster := [1, 2, 3] } sampleRasterStart = some (s', evs) ∧
      s'.raster = if sampleRasterStart.offset = 0 then sampleRasterStart.data
        else [1, 2, 3] ++ sampleRasterStart.data) ∧
    (∃ s' evs, handleRaster { liveSession with raster := [7, 8] } sampleRasterRest = some (s', evs) ∧
      s'.raster = if sampleRasterRest.offset = 0 then sampleRasterRest.data
        else [7, 8] ++ sampleRasterRest.data) :=
  ⟨raster_chunk_restart_or_append _ sampleRasterStart (by decide) (by decide),
    raster_chunk_restart_or_append _ sampleRasterRest (by decide) (by decide)⟩

/-- C4: a raster message with total size 0 completes the transfer at
once — the 100% progress signal is emitted and the draw buffer is
flushed, so the member goes Live — and, the raster buffer being empty,
the decoded session image is the null picture. -/
theorem zero_size_raster_immediate_live (s : SessionState) (m : RasterMsg)
    (decodeOk : List Nat → Bool) (hsz : m.size = 0) (hraster : s.raster = []) :
    handleRaster s m =
      some ({ s with bufferdrawing := false, drawbuffer := [] },
        Event.rasterReceived 100 :: s.drawbuffer.map appliedEvent) ∧
    sessionImage decodeOk { s with bufferdrawing := false, drawbuffer := [] } =
      some SessionImage.nullImage := by
  constructor
  · simp [handleRaster, hsz, flushDrawBuffer_spec]
  · simp [sessionImage, hraster]

/-- Witness for C4: a fresh session (three operations already buffered)
receiving the all-zero raster message. -/
theorem zero_size_raster_immediate_live_witness :
    handleRaster { initSession with drawbuffer := sampleOps }
        { session_id := 1, offset := 0, length := 0, size := 0, data := [] } =
      some ({ { initSession with drawbuffer := sampleOps } with
          bufferdrawing := false, drawbuffer := [] },
        Event.rasterReceived 100 ::
          ({ initSession with drawbuffer := sampleOps } : SessionState).drawbuffer.map appliedEvent) ∧
    sessionImage (fun _ => true) { { initSession with drawbuffer := sampleOps } with
        bufferdrawing := false, drawbuffer := [] } = some SessionImage.nullImage :=
  zero_size_raster_immediate_live { initSession with drawbuffer := sampleOps }
    { session_id := 1, offset := 0, length := 0, size := 0, data := [] }
    (fun _ => true) rfl rfl

/-- C10: `flushDrawBuffer` always terminates and handles each buffered
message exactly once.  The flag is cleared before the loop, so the
handlers invoked during the drain never re-enqueue (first conjunct);
hence fuel equal to the initial queue length suffices and the drain
dequeues, applies and removes every queued message exactly once, leaving
the buffer empty (second conjunct). -/
theorem flush_draw_buffer_terminates (s : SessionState) :
    (∀ m : DrawMsg, handleDrawMsg { s with bufferdrawing := false } m =
      ({ s with bufferdrawing := false }, [appliedEvent m])) ∧
    flushDrawBuffer s =
      some ({ s with bufferdrawing := false, drawbuffer := [] },
        s.drawbuffer.map appliedEvent) :=
  ⟨fun m => handleDrawMsg_live _ m rfl, flushDrawBuffer_spec s⟩

/-! ## Snapshot upload (`sendRaster` / `sendRasterChunk`)

The provider-side fields: `raster_` (the buffer being uploaded) and
`rasteroffset_`.  `sendRasterChunk` sends at most one `Raster` message
per call and emits the `rasterSent` progress signal. -/

structure UploadState where
  raster : List Nat
  rasteroffset : Nat
  deriving Repr, DecidableEq

structure SendOutcome where
  state : UploadState
  sent : List RasterMsg
  rasterSent : List Nat
  deriving Repr, DecidableEq

/-- Embeds `SessionState::sendRasterChunk`: clamp the 4 KiB chunk length to the
remaining data; a zero remaining length resets the offset, releases the
buffer and returns without sending; otherwise one chunk is sent and the
progress signal emitted. -/
def sendRasterChunk (sid : Nat) (u : UploadState) : SendOutcome :=
  let chunklen :=
    if u.rasteroffset + 1024 * 4 > u.raster.length
    then u.raster.length - u.rasteroffset
    else 1024 * 4
  if chunklen = 0 then
    { state := { raster := [], rasteroffset := 0 }, sent := [], rasterSent := [] }
  else
    let msg : RasterMsg :=
      { session_id := sid, offset := u.rasteroffset, length := chunklen,
        size := u.raster.length,
        data := (u.raster.drop u.rasteroffset).take chunklen }
    let newoffset := u.rasteroffset + chunklen
    { state := { raster := u.raster, rasteroffset := newoffset },
      sent := [msg],
      rasterSent := [100 * newoffset / u.raster.length] }

/-- Embeds `SessionState::sendRaster`: store the buffer, reset the offset, send
the first chunk. -/
def sendRaster (sid : Nat) (u : UploadState) (raster : List Nat) : SendOutcome :=
  sendRasterChunk sid { raster := raster, rasteroffset := 0 }

/-- C5 counterexample: starting an empty (zero-byte) upload via
`sendRaster` does not send exactly one degenerate chunk — the chunk
length computes to zero, so the function returns before building any
message and zero chunks reach the network. -/
theorem empty_raster_one_chunk_counterexample :
    ¬ (sendRaster 1 { raster := [], rasteroffset := 0 } []).sent.length = 1 := by
  decide

/-- C5 (amended): starting an empty upload via `sendRaster` sends no
chunk at all: the transfer ends immediately with the raster buffer
released, the offset reset and no progress signal emitted. -/
theorem empty_raster_sends_nothing (sid : Nat) (u : UploadState) :
    sendRaster sid u [] =
      { state := { raster := [], rasteroffset := 0 }, sent := [],
        rasterSent := [] } := by
  simp [sendRaster, sendRasterChunk]

/-! ## Server shell (`MultiServer`) -/

/-- Embeds `MultiServer::State`. -/
inductive ServerState where
  | NOT_STARTED
  | RUNNING
  | STOPPING
  | STOPPED
  deriving Repr, DecidableEq

inductive ServerEvent where
  | serverStopped
  deriving Repr, DecidableEq

/-- The `MultiServer` fields the stop machine reads and writes.
`sessionCount` and `totalUsers` mirror the aggregate counts reported by
the session registry (`SessionServer`); `listenerClosed` records
`m_server->close()` and `sessionsStopped` records
`m_sessions->stopAll()`. -/
structure MultiServer where
  state : ServerState
  autoStop : Bool
  sessionCount : Nat
  totalUsers : Nat
  listenerClosed : Bool
  sessionsStopped : Bool
  deriving Repr, DecidableEq

/-- Embeds `MultiServer::stop`: from RUNNING, enter STOPPING, close the accept
path and signal every session to terminate; then, if STOPPING with zero
users left, enter STOPPED and emit the stopped signal. -/
def MultiServer.stop (s : MultiServer) : MultiServer × List ServerEvent :=
  let s1 :=
    if s.state = ServerState.RUNNING then
      { s with
        state := ServerState.STOPPING
        listenerClosed := true
        sessionsStopped := true }
    else s
  if s1.state = ServerState.STOPPING ∧ s1.totalUsers = 0 then
    ({ s1 with state := ServerState.STOPPED }, [ServerEvent.serverStopped])
  else
    (s1, [])

/-- Embeds `MultiServer::tryAutoStop`: stop only when RUNNING with auto-stop
enabled and both aggregate counts at zero. -/
def MultiServer.tryAutoStop (s : MultiServer) : MultiServer × List ServerEvent :=
  if s.state = ServerState.RUNNING ∧ s.autoStop = true ∧
      s.sessionCount = 0 ∧ s.totalUsers = 0 then
    s.stop
  else
    (s, [])

/-- C7: with auto-stop enabled, a RUNNING server reaches STOPPED through
`tryAutoStop` exactly when the registry reports no sessions and no
users, and never earlier; and `stop` newly enters the STOPPED state
(emitting the stopped signal) only when the total user count is zero. -/
theorem autostop_exactly_when_vacant (s : MultiServer)
    (hrun : s.state = ServerState.RUNNING) (hauto : s.autoStop = true) :
    (s.tryAutoStop.1.state = ServerState.STOPPED ↔
      s.sessionCount = 0 ∧ s.totalUsers = 0) ∧
    (∀ t : MultiServer, t.stop.1.state = ServerState.STOPPED →
      t.state = ServerState.STOPPED ∨
        (t.totalUsers = 0 ∧ t.stop.2 = [ServerEvent.serverStopped])) := by
  constructor
  · constructor
    · intro hstopped
      by_contra hnot
      have hcond : ¬ (s.state = ServerState.RUNNING ∧ s.autoStop = true ∧
          s.sessionCount = 0 ∧ s.totalUsers = 0) := by
        intro ⟨_, _, h3, h4⟩
        exact hnot ⟨h3, h4⟩
      rw [MultiServer.tryAutoStop, if_neg hcond] at hstopped
      rw [hrun] at hstopped
      exact absurd hstopped (by decide)
    · intro ⟨h3, h4⟩
      have hcond : s.state = ServerState.RUNNING ∧ s.autoStop = true ∧
          s.sessionCount = 0 ∧ s.totalUsers = 0 := ⟨hrun, hauto, h3, h4⟩
      rw [MultiServer.tryAutoStop, if_pos hcond]
      simp [MultiServer.stop, hrun, h4]
  · intro t hstopped
    by_cases htu : t.totalUsers = 0
    · by_cases htr : t.state = ServerState.RUNNING
      · exact Or.inr ⟨htu, by simp [MultiServer.stop, htr, htu]⟩
      · by_cases hts : t.state = ServerState.STOPPING
        · exact Or.inr ⟨htu, by simp [MultiServer.stop, htr, hts, htu]⟩
        · left
          rw [MultiServer.stop] at hstopped
          simp only [if_neg htr] at hstopped
          rw [if_neg (by intro ⟨h1, _⟩; exact hts h1)] at hstopped
          exact hstopped
    · left
      rw [MultiServer.stop] at hstopped
      by_cases htr : t.state = ServerState.RUNNING
      · simp only [if_pos htr] at hstopped
        rw [if_neg (by intro ⟨_, h2⟩; exact htu h2)] at hstopped
        simp at hstopped
      · simp only [if_neg htr] at hstopped
        rw [if_neg (by intro ⟨_, h2⟩; exact htu h2)] at hstopped
        exact hstopped

/-- A vacant RUNNING auto-stop server. -/
def vacantServer : MultiServer :=
  { state := ServerState.RUNNING
    autoStop := true
    sessionCount := 0
    totalUsers := 0
    listenerClosed := false
    sessionsStopped := false }

/-- An occupied RUNNING auto-stop server. -/
def busyServer : MultiServer :=
  { state := ServerState.RUNNING
    autoStop := true
    sessionCount := 1
    totalUsers := 2
    listenerClosed := false
    sessionsStopped := false }

/-- Witness for C7: a vacant auto-stop server stops; an occupied one
does not. -/
theorem autostop_exactly_when_vacant_witness :
    vacantServer.tryAutoStop.1.state = ServerState.STOPPED ∧
    ¬ busyServer.tryAutoStop.1.state = ServerState.STOPPED := by
  constructor
  · exact (autostop_exactly_when_vacant vacantServer rfl rfl).1.mpr ⟨rfl, rfl⟩
  · intro h
    have := (autostop_exactly_when_vacant busyServer rfl rfl).1.mp h
    exact absurd this.1 (by decide)

/-! ## Admission (`MultiServer::newClient`) -/

/-- Outcome of accepting a pending connection: either the client is
kicked with a terminal notice and closed (no user created, never handed
to the session registry), or it is passed to the session registry. -/
inductive NewClientResult where
  | kicked (reason : String)
  | addedToSessions
  deriving Repr, DecidableEq

/-- Embeds `MultiServer::newClient`: consult the ban registry on the peer
address first; banned peers get `disconnectKick("BANNED")`, everyone
else goes to `SessionServer::addClient`.  The session the connection
will later request plays no part. -/
def newClient (isAddressBanned : Nat → Bool) (peerAddress : Nat) :
    NewClientResult :=
  if isAddressBanned peerAddress then NewClientResult.kicked "BANNED"
  else NewClientResult.addedToSessions

/-- C6: a connection from a banned peer address is rejected with the
terminal "BANNED" kick notice and never handed to the session registry
(so no user is created and no session admission takes place, whatever
session it would have requested); a non-banned connection is always
passed to the session registry. -/
theorem banned_rejected_before_admission (isAddressBanned : Nat → Bool)
    (peerAddress : Nat) :
    (isAddressBanned peerAddress = true →
      newClient isAddressBanned peerAddress = NewClientResult.kicked "BANNED" ∧
      newClient isAddressBanned peerAddress ≠ NewClientResult.addedToSessions) ∧
    (isAddressBanned peerAddress = false →
      newClient isAddressBanned peerAddress = NewClientResult.addedToSessions) := by
  constructor
  · intro hb
    constructor
    · simp [newClient, hb]
    · simp [newClient, hb]
  · intro hb
    simp [newClient, hb]

/-- Witness for C6: address 5 banned, address 6 not. -/
theorem banned_rejected_before_admission_witness :
    (newClient (fun a => a == 5) 5 = NewClientResult.kicked "BANNED" ∧
      newClient (fun a => a == 5) 5 ≠ NewClientResult.addedToSessions) ∧
    newClient (fun a => a == 5) 6 = NewClientResult.addedToSessions :=
  ⟨(banned_rejected_before_admission (fun a => a == 5) 5).1 (by decide),
    (banned_rejected_before_admission (fun a => a == 5) 6).2 (by decide)⟩

/-! ## Administrative JSON API -/

inductive JsonApiMethod where
  | Get
  | Create
  | Update
  | Delete
  deriving Repr, DecidableEq

/-- The recognized server configuration keys, in the order of the
`settings` array of `MultiServer::serverJsonApi`. -/
inductive ConfigKey where
  | ClientTimeout
  | SessionSizeLimit
  | SessionCountLimit
  | EnablePersistence
  | IdleTimeLimit
  | ServerTitle
  | WelcomeMessage
  | AnnounceWhiteList
  | LocalAddress
  | PrivateUserList
  | AllowGuests
  deriving Repr, DecidableEq

/-- The JSON name of a configuration key. -/
def ConfigKey.name : ConfigKey → String
  | ClientTimeout => "clientTimeout"
  | SessionSizeLimit => "sessionSizeLimit"
  | SessionCountLimit => "sessionCountLimit"
  | EnablePersistence => "persistence"
  | IdleTimeLimit => "idleTimeLimit"
  | ServerTitle => "serverTitle"
  | WelcomeMessage => "welcomeMessage"
  | AnnounceWhiteList => "announceWhitelist"
  | LocalAddress => "localAddress"
  | PrivateUserList => "privateUserList"
  | AllowGuests => "allowGuests"

/-- The `settings` array of `MultiServer::serverJsonApi`. -/
def settings : List ConfigKey :=
  [ConfigKey.ClientTimeout, ConfigKey.SessionSizeLimit,
    ConfigKey.SessionCountLimit, ConfigKey.EnablePersistence,
    ConfigKey.IdleTimeLimit, ConfigKey.ServerTitle,
    ConfigKey.WelcomeMessage, ConfigKey.AnnounceWhiteList,
    ConfigKey.LocalAddress, ConfigKey.PrivateUserList,
    ConfigKey.AllowGuests]

/-- A JSON object body, modelled as its key/value pairs (keys unique). -/
def Request : Type := List (String × String)

/-- Key lookup in a JSON object (`request[name]`). -/
def reqLookup (request : Request) (k : String) : Option String :=
  match request with
  | [] => none
  | (k', v) :: rest => if k' = k then some v else reqLookup rest k

/-- Reading `request[name].toString()`: a missing key reads as the empty
string. -/
def reqString (request : Request) (k : String) : String :=
  (reqLookup request k).getD ""

/-- Embeds `ServerConfig::setConfigString`. -/
def setConfigString (cfg : ConfigKey → String) (k : ConfigKey) (v : String) :
    ConfigKey → String :=
  fun k2 => if k2 = k then v else cfg k2

/-- One iteration of the `serverJsonApi` update loop: write the key only
when the request body contains its name. -/
def updStep (request : Request) (cfg : ConfigKey → String) (k : ConfigKey) :
    ConfigKey → String :=
  match reqLookup request k.name with
  | some v => setConfigString cfg k v
  | none => cfg

/-- The whole update loop of `MultiServer::serverJsonApi`. -/
def applySettingsUpdate (request : Request) (cfg : ConfigKey → String) :
    ConfigKey → String :=
  settings.foldl (updStep request) cfg

inductive ServerApiOutcome where
  | notFound
  | badMethod
  | ok (body : List (String × String))

/-- Embeds `MultiServer::serverJsonApi`: only Get and Update are allowed on the
bare `server` path; Update writes the keys present in the body; both
verbs answer Ok with the full resulting settings object. -/
def serverJsonApi (method : JsonApiMethod) (path : List String)
    (request : Request) (cfg : ConfigKey → String) :
    ServerApiOutcome × (ConfigKey → String) :=
  if path ≠ [] then (ServerApiOutcome.notFound, cfg)
  else if method ≠ JsonApiMethod.Get ∧ method ≠ JsonApiMethod.Update then
    (ServerApiOutcome.badMethod, cfg)
  else
    let cfg2 := if method = JsonApiMethod.Update
      then applySettingsUpdate request cfg
      else cfg
    (ServerApiOutcome.ok (settings.map fun k => (k.name, cfg2 k)), cfg2)

/-- A key the loop never visits keeps its value. -/
theorem foldl_updStep_not_mem (request : Request) :
    ∀ (l : List ConfigKey) (cfg : ConfigKey → String) (k : ConfigKey),
      k ∉ l → (l.foldl (updStep request) cfg) k = cfg k := by
  intro l
  induction l with
  | nil => intro cfg k _; rfl
  | cons k' rest ih =>
    intro cfg k hk
    have hk1 : k ≠ k' := fun h => hk (by rw [h]; exact List.mem_cons_self k' rest)
    have hk2 : k ∉ rest := fun h => hk (List.mem_cons_of_mem k' h)
    rw [List.foldl_cons, ih (updStep request cfg k') k hk2]
    unfold updStep
    cases reqLookup request k'.name with
    | none => rfl
    | some v => simp [setConfigString, hk1]

/-- A key visited exactly once ends at the request's value when present,
at its prior value otherwise. -/
theorem foldl_updStep_mem (request : Request) :
    ∀ (l : List ConfigKey) (cfg : ConfigKey → String) (k : ConfigKey),
      k ∈ l → l.Nodup →
      (l.foldl (updStep request) cfg) k =
        ((reqLookup request k.name).getD (cfg k)) := by
  intro l
  induction l with
  | nil => intro cfg k hk _; exact absurd hk (List.not_mem_nil k)
  | cons k' rest ih =>
    intro cfg k hk hnd
    rw [List.foldl_cons]
    by_cases heq : k = k'
    · subst heq
      have hnotin : k ∉ rest := (List.nodup_cons.mp hnd).1
      rw [foldl_updStep_not_mem request rest (updStep request cfg k) k hnotin]
      unfold updStep
      cases reqLookup request k.name with
      | none => rfl
      | some v => simp [setConfigString]
    · have hin : k ∈ rest := by
        cases List.mem_cons.mp hk with
        | inl h => exact absurd h heq
        | inr h => exact h
      rw [ih (updStep request cfg k') k hin (List.nodup_cons.mp hnd).2]
      have : updStep request cfg k' k = cfg k := by
        unfold updStep
        cases reqLookup request k'.name with
        | none => rfl
        | some v => simp [setConfigString, heq]
      rw [this]

/-- C8: an administrative Update on the bare `server` resource writes
only the configuration keys named in the request body; every recognized
key absent from the request retains its prior value; and the call
answers Ok carrying the full resulting settings object. -/
theorem server_update_only_present_keys (method : JsonApiMethod)
    (path : List String) (request : Request) (cfg : ConfigKey → String)
    (hm : method = JsonApiMethod.Update) (hp : path = []) :
    serverJsonApi method path request cfg =
      (ServerApiOutcome.ok
        (settings.map fun k => (k.name, applySettingsUpdate request cfg k)),
        applySettingsUpdate request cfg) ∧
    ∀ k : ConfigKey, applySettingsUpdate request cfg k =
      (reqLookup request k.name).getD (cfg k) := by
  subst hm hp
  constructor
  · simp [serverJsonApi]
  · intro k
    have hmem : k ∈ settings := by cases k <;> decide
    have hnd : settings.Nodup := by decide
    exact foldl_updStep_mem request settings cfg k hmem hnd

/-- Witness for C8: a request updating only the session size limit over
a constant prior configuration. -/
theorem server_update_only_present_keys_witness :
    (serverJsonApi JsonApiMethod.Update [] [("sessionSizeLimit", "99")] (fun _ => "old") =
      (ServerApiOutcome.ok
        (settings.map fun k => (k.name,
          applySettingsUpdate [("sessionSizeLimit", "99")] (fun _ => "old") k)),
        applySettingsUpdate [("sessionSizeLimit", "99")] (fun _ => "old")) ∧
      ∀ k : ConfigKey,
        applySettingsUpdate [("sessionSizeLimit", "99")] (fun _ => "old") k =
          (reqLookup [("sessionSizeLimit", "99")] k.name).getD "old") :=
  server_update_only_present_keys JsonApiMethod.Update []
    [("sessionSizeLimit", "99")] (fun _ => "old") rfl rfl

/-! ## Banlist JSON API (`MultiServer::banlistJsonApi`)

`QHostAddress` parsing and `QDateTime::fromString` with the fixed
format `yyyy-MM-dd HH:mm:ss` are external Qt routines; they enter as the
`parseAddr` / `parseExpiration` oracles (`none` = null result). -/

structure BanEntry where
  id : Nat
  ip : Nat
  subnet : Nat
  expiration : Nat
  comment : String
  deriving Repr, DecidableEq

inductive BanApiOutcome where
  | notFound
  | badMethod
  | badRequest (message : String)
  | okDeleted
  | okList (entries : List BanEntry)
  | okAdded (e : BanEntry)
  deriving Repr, DecidableEq

/-- Embeds `MultiServer::banlistJsonApi`: needs the database-backed config;
a one-component path is Delete-by-id; the bare path answers Get with the
list or Create, which requires a parseable IP address and a parseable
expiration timestamp before an entry is added. -/
def banlistJsonApi (parseAddr : String → Option Nat)
    (parseExpiration : String → Option Nat) (hasDb : Bool)
    (method : JsonApiMethod) (path : List String) (request : Request)
    (banlist : List BanEntry) : BanApiOutcome × List BanEntry :=
  if hasDb = false then (BanApiOutcome.notFound, banlist)
  else if path.length = 1 then
    if method ≠ JsonApiMethod.Delete then (BanApiOutcome.badMethod, banlist)
    else
      let bid := ((path.headD "").toNat?).getD 0
      if banlist.any (fun e => e.id = bid) then
        (BanApiOutcome.okDeleted, banlist.filter (fun e => ¬ e.id = bid))
      else
        (BanApiOutcome.notFound, banlist)
  else if path ≠ [] then (BanApiOutcome.notFound, banlist)
  else
    match method with
    | JsonApiMethod.Get => (BanApiOutcome.okList banlist, banlist)
    | JsonApiMethod.Create =>
      match parseAddr (reqString request "ip") with
      | none => (BanApiOutcome.badRequest "Valid IP address required", banlist)
      | some ip =>
        match parseExpiration (reqString request "expiration") with
        | none =>
          (BanApiOutcome.badRequest "Valid expiration time required", banlist)
        | some expiration =>
          let entry : BanEntry :=
            { id := banlist.length
              ip := ip
              subnet := ((reqString request "subnet").toNat?).getD 0
              expiration := expiration
              comment := reqString request "comment" }
          (BanApiOutcome.okAdded entry, banlist ++ [entry])
    | _ => (BanApiOutcome.badMethod, banlist)

/-- C9: a banlist Create whose expiration field does not parse in the
`yyyy-MM-dd HH:mm:ss` format answers BadRequest and leaves the ban store
unchanged, even when the IP is valid; likewise a Create without a valid
IP address answers BadRequest with no entry added. -/
theorem banlist_create_invalid_rejected (parseAddr : String → Option Nat)
    (parseExpiration : String → Option Nat) (request : Request)
    (banlist : List BanEntry) :
    (∀ ip, parseAddr (reqString request "ip") = some ip →
      parseExpiration (reqString request "expiration") = none →
      banlistJsonApi parseAddr parseExpiration true JsonApiMethod.Create []
          request banlist =
        (BanApiOutcome.badRequest "Valid expiration time required", banlist)) ∧
    (parseAddr (reqString request "ip") = none →
      banlistJsonApi parseAddr parseExpiration true JsonApiMethod.Create []
          request banlist =
        (BanApiOutcome.badRequest "Valid IP address required", banlist)) := by
  constructor
  · intro ip hip hexp
    simp [banlistJsonApi, hip, hexp]
  · intro hip
    simp [banlistJsonApi, hip]

/-- Witness for C9: valid IP with unparseable expiration, and an
unparseable IP. -/
theorem banlist_create_invalid_rejected_witness :
    banlistJsonApi (fun _ => some 7) (fun _ => none) true JsonApiMethod.Create
        [] [("ip", "10.0.0.1"), ("expiration", "never")] [] =
      (BanApiOutcome.badRequest "Valid expiration time required", []) ∧
    banlistJsonApi (fun _ => none) (fun _ => none) true JsonApiMethod.Create
        [] [("ip", "not-an-ip")] [] =
      (BanApiOutcome.badRequest "Valid IP address required", []) :=
  ⟨(banlist_create_invalid_rejected (fun _ => some 7) (fun _ => none)
      [("ip", "10.0.0.1"), ("expiration", "never")] []).1 7 rfl rfl,
    (banlist_create_invalid_rejected (fun _ => none) (fun _ => none)
      [("ip", "not-an-ip")] []).2 rfl⟩

end Drawpile
